import Mathlib

/-!
Verification of the HTML-to-Excel outage-report pipeline
(`api/excel_transformer.py`): the `HTMLTableParser` tag scanner, the
byte-decoding fallback chain of `parse_html_buffer`, the
filter/classify/sort/renumber logic of `transform_data`, and the layout
produced by `save_to_excel_buffer`.

Modelling conventions:
* A pandas `DataFrame` of records is a Lean `List` of structure values; the
  empty list plays the role of the empty `DataFrame` (the pipeline's
  `EmptyResult` marker).
* Python strings are `String`; `str.strip` is modelled by `trimString`
  (ASCII whitespace), and the permissive `pd.to_datetime(..., errors='coerce')`
  is modelled by `parseStart`, which accepts the formats the spec guarantees
  (`YYYY-MM-DD`, `YYYY-MM-DD HH:MM`, `YYYY-MM-DD HH:MM:SS`) and returns
  `none` (the `NaT` sentinel) otherwise.
* `pandas.sort_values` on several key columns is a stable sort by the
  lexicographic key; it is modelled by `List.insertionSort`, which is stable
  and sorted for a total transitive relation, hence extensionally the unique
  stable sort that pandas implements.
* The byte codecs (`euc-kr`, `utf-8`, `cp949` with `errors='ignore'`) are
  standard-library functions, so they enter the model abstractly: the two
  strict decoders may fail (`Option`), the lossy one is total.
-/

namespace ExcelTransformer

/-! ### String helpers (models of Python string primitives) -/

/-- ASCII whitespace, the characters `str.strip` removes in this data. -/
def isSpaceChar (c : Char) : Bool :=
  c = ' ' || c = '\t' || c = '\n' || c = '\r'

/-- Model of Python `str.strip()`: drop leading and trailing whitespace. -/
def trimString (s : String) : String :=
  ⟨((s.data.dropWhile isSpaceChar).reverse.dropWhile isSpaceChar).reverse⟩

/-- Split a character list at every occurrence of `sep` (Python `str.split(sep)`). -/
def splitOnChar (sep : Char) (l : List Char) : List (List Char) :=
  l.foldr
    (fun c acc =>
      match acc with
      | [] => [[c]]
      | cur :: rest => if c = sep then [] :: cur :: rest else (c :: cur) :: rest)
    [[]]

/-- Read a non-empty all-digit character list as a natural number. -/
def digitsToNat (l : List Char) : Option Nat :=
  if l ≠ [] ∧ l.all Char.isDigit then
    some (l.foldl (fun acc c => acc * 10 + (c.toNat - 48)) 0)
  else none

/-! ### `HTMLTableParser` — the tag-state scanner

The Python class drives `html.parser.HTMLParser`, whose callbacks
(`handle_starttag` / `handle_endtag` / `handle_data`) we receive as an
explicit event stream; the state fields and the three handlers are
transcribed one-to-one. -/

/-- One callback of Python's `HTMLParser` tokenizer. -/
inductive HtmlEvent where
  | startTag (tag : String)
  | endTag (tag : String)
  | text (s : String)
deriving DecidableEq

/-- The mutable fields of `HTMLTableParser`. -/
structure ParserState where
  in_table : Bool
  in_row : Bool
  in_cell : Bool
  rows : List (List String)
  current_row : List String
  current_cell : String
deriving DecidableEq

/-- The `__init__` state of `HTMLTableParser`. -/
def initState : ParserState :=
  { in_table := false, in_row := false, in_cell := false,
    rows := [], current_row := [], current_cell := "" }

/-- `HTMLTableParser.handle_starttag`. -/
def handle_starttag (st : ParserState) (tag : String) : ParserState :=
  if tag = "table" then { st with in_table := true }
  else if tag = "tr" ∧ st.in_table then { st with in_row := true, current_row := [] }
  else if (tag = "td" ∨ tag = "th") ∧ st.in_row then
    { st with in_cell := true, current_cell := "" }
  else st

/-- `HTMLTableParser.handle_endtag`. -/
def handle_endtag (st : ParserState) (tag : String) : ParserState :=
  if tag = "table" then { st with in_table := false }
  else if tag = "tr" ∧ st.in_row then
    { st with
      in_row := false
      rows := if st.current_row.isEmpty then st.rows else st.rows ++ [st.current_row] }
  else if (tag = "td" ∨ tag = "th") ∧ st.in_cell then
    { st with in_cell := false, current_row := st.current_row ++ [trimString st.current_cell] }
  else st

/-- `HTMLTableParser.handle_data`. -/
def handle_data (st : ParserState) (data : String) : ParserState :=
  if st.in_cell then { st with current_cell := st.current_cell ++ data } else st

/-- Dispatch one tokenizer callback. -/
def feedEvent (st : ParserState) : HtmlEvent → ParserState
  | .startTag t => handle_starttag st t
  | .endTag t => handle_endtag st t
  | .text s => handle_data st s

/-- `parser.feed(content)`: run the scanner over the whole event stream. -/
def feed (events : List HtmlEvent) : ParserState :=
  events.foldl feedEvent initState

/-! ### Raw records and `parse_html_buffer` -/

/-- One shaped row of the source table; the 15 positional fields of the
Python dict built in `parse_html_buffer` (`사업소_1차`, `사업소_2차`, `변전소`,
`전압`, `설비명`, `공사명`, `공사개요`, `휴전일시_시작`, `휴전일시_종료`, `구분`,
`주관부서`, `감독자`, `도급업체명`, `수속절차`, `휴전종류`). -/
structure RawRecord where
  primarySite : String
  secondarySite : String
  substation : String
  voltage : String
  equipment : String
  workName : String
  workSummary : String
  startTime : String
  endTime : String
  category : String
  department : String
  supervisor : String
  contractor : String
  procedure : String
  outageType : String
deriving DecidableEq

/-- Positional shaping of one kept row; positions 12–14 carry the explicit
`len(row) > k` guards of the source (dead under the `≥ 15` filter but kept). -/
def mkRawRecord (row : List String) : RawRecord where
  primarySite := row.getD 0 ""
  secondarySite := row.getD 1 ""
  substation := row.getD 2 ""
  voltage := row.getD 3 ""
  equipment := row.getD 4 ""
  workName := row.getD 5 ""
  workSummary := row.getD 6 ""
  startTime := row.getD 7 ""
  endTime := row.getD 8 ""
  category := row.getD 9 ""
  department := row.getD 10 ""
  supervisor := row.getD 11 ""
  contractor := if row.length > 12 then row.getD 12 "" else ""
  procedure := if row.length > 13 then row.getD 13 "" else ""
  outageType := if row.length > 14 then row.getD 14 "" else ""

/-- The table-to-records part of `parse_html_buffer`: scan the events, bail
out to the empty result if fewer than 3 rows were parsed, skip the first 3
rows, and shape every remaining row having at least 15 cells. -/
def parse_html_rows (events : List HtmlEvent) : List RawRecord :=
  let rows := (feed events).rows
  if rows.length < 3 then []
  else ((rows.drop 3).filter (fun row => 15 ≤ row.length)).map mkRawRecord

/-- Outcome of the byte-decoding step of `parse_html_buffer`.
`decodeFailure` is the modelled-but-unreachable outcome in which every
fallback raised. -/
inductive DecodeResult where
  | ok (content : String)
  | decodeFailure
deriving DecidableEq

/-- The decoding chain of `parse_html_buffer`: try `euc-kr`, on a
`UnicodeDecodeError` try `utf-8`, and finally `cp949` with `errors='ignore'`.
The codecs are abstract: the two strict ones may fail, the lossy one cannot. -/
def decodeBuffer (eucKr utf8Strict : List Nat → Option String)
    (cp949Ignore : List Nat → String) (buffer : List Nat) : DecodeResult :=
  match eucKr buffer with
  | some content => .ok content
  | none =>
    match utf8Strict buffer with
    | some content => .ok content
    | none => .ok (cp949Ignore buffer)

/-! ### `transform_data` — filter, classify, sort, renumber -/

/-- One row of the output frame built by `transform_data` (columns `구분`,
`순번`, `휴전일시_시작`, `휴전일시_종료`, `2차`, `변전소`, `전압`, `설비명`,
`공사개요`, `구분2`, `주관부서`, `감독자`, `안전관리자`). -/
structure OutputRecord where
  gubun : String
  seqNo : Nat
  startTime : String
  endTime : String
  secondary : String
  substation : String
  voltage : String
  equipment : String
  workSummary : String
  gubun2 : String
  department : String
  supervisor : String
  safetyManager : String
deriving DecidableEq

/-- `allowed_second_values = ['직할', '강릉', '동해', '원주', '태백']`. -/
def allowed_second_values : List String := ["직할", "강릉", "동해", "원주", "태백"]

/-- The record appended for one retained row of the loop in `transform_data`:
classification `활선` exactly when `수속절차 == '활선작업'`, sequence placeholder
`0`, the copied columns, and the always-empty `안전관리자`. -/
def mkOutputRecord (row : RawRecord) : OutputRecord where
  gubun := if row.procedure = "활선작업" then "활선" else "휴전"
  seqNo := 0
  startTime := row.startTime
  endTime := row.endTime
  secondary := row.secondarySite
  substation := row.substation
  voltage := row.voltage
  equipment := row.equipment
  workSummary := row.workSummary
  gubun2 := row.category
  department := row.department
  supervisor := row.supervisor
  safetyManager := ""

/-- The filter-and-map loop of `transform_data`: rows whose `사업소_2차` is
not in `allowed_second_values` are skipped (`continue`), the rest are shaped. -/
def preOutput (df : List RawRecord) : List OutputRecord :=
  df.filterMap fun row =>
    if allowed_second_values.contains row.secondarySite then some (mkOutputRecord row)
    else none

/-- `second_order = {'직할': 1, '강릉': 2, '동해': 3, '원주': 4, '태백': 5}`
read through `.get(x, 999)`. -/
def second_order (x : String) : Nat :=
  if x = "직할" then 1
  else if x = "강릉" then 2
  else if x = "동해" then 3
  else if x = "원주" then 4
  else if x = "태백" then 5
  else 999

/-- Model of `pd.to_datetime(value, errors='coerce')` on the formats the data
contract guarantees: `YYYY-MM-DD`, optionally followed by ` HH:MM` or
` HH:MM:SS`.  The result is a strictly monotone encoding into `Nat`; any other
shape gives `none`, the model of the `NaT` sentinel. -/
def parseDatePart (l : List Char) : Option Nat :=
  match splitOnChar '-' l with
  | [y, m, d] =>
    match digitsToNat y, digitsToNat m, digitsToNat d with
    | some yv, some mv, some dv =>
      if 1 ≤ mv ∧ mv ≤ 12 ∧ 1 ≤ dv ∧ dv ≤ 31 then some ((yv * 13 + mv) * 32 + dv)
      else none
    | _, _, _ => none
  | _ => none

/-- Seconds within the day for a `HH:MM` or `HH:MM:SS` character list. -/
def parseTimePart (l : List Char) : Option Nat :=
  match splitOnChar ':' l with
  | [h, m] =>
    match digitsToNat h, digitsToNat m with
    | some hv, some mv => if hv ≤ 23 ∧ mv ≤ 59 then some (hv * 3600 + mv * 60) else none
    | _, _ => none
  | [h, m, s] =>
    match digitsToNat h, digitsToNat m, digitsToNat s with
    | some hv, some mv, some sv =>
      if hv ≤ 23 ∧ mv ≤ 59 ∧ sv ≤ 59 then some (hv * 3600 + mv * 60 + sv) else none
    | _, _, _ => none
  | _ => none

/-- The `시작_datetime` temporary column: parse `휴전일시_시작`, `none` = `NaT`. -/
def parseStart (s : String) : Option Nat :=
  match splitOnChar ' ' (trimString s).data with
  | [d] => (parseDatePart d).map (· * 86400)
  | [d, t] =>
    match parseDatePart d, parseTimePart t with
    | some dv, some tv => some (dv * 86400 + tv)
    | _, _ => none
  | _ => none

/-- The multi-column sort key of `sort_values(by=['2차_순서', '시작_datetime'])`:
the site rank, then a two-component encoding of the parsed start time in which
`NaT` (`none`) sorts strictly after every parsed time of equal rank
(pandas `na_position='last'` per key column). -/
def sortKey (r : OutputRecord) : Nat × Nat × Nat :=
  (second_order r.secondary,
    match parseStart r.startTime with
    | some t => (0, t)
    | none => (1, 0))

/-- Lexicographic comparison of the three-component sort key. -/
def tripleLE (a b : Nat × Nat × Nat) : Prop :=
  a.1 < b.1 ∨ (a.1 = b.1 ∧ (a.2.1 < b.2.1 ∨ (a.2.1 = b.2.1 ∧ a.2.2 ≤ b.2.2)))

instance : DecidableRel tripleLE := fun a b => by
  unfold tripleLE
  exact inferInstance

/-- The record ordering realised by `sort_values(by=['2차_순서', '시작_datetime'])`. -/
def keyLE (a b : OutputRecord) : Prop := tripleLE (sortKey a) (sortKey b)

instance : DecidableRel keyLE := fun a b => by
  unfold keyLE
  exact inferInstance

instance : IsTotal OutputRecord keyLE where
  total a b := by
    unfold keyLE tripleLE
    omega

instance : IsTrans OutputRecord keyLE where
  trans a b c hab hbc := by
    unfold keyLE tripleLE at hab hbc ⊢
    omega

/-- The final `순번` pass, generalised over the first number handed out:
`df_final['순번'] = range(1, len(df_final) + 1)`. -/
def renumberFrom (n : Nat) (l : List OutputRecord) : List OutputRecord :=
  (l.enumFrom n).map fun p => { p.2 with seqNo := p.1 + 1 }

/-- Renumbering of the whole final frame, `1..N` in final order. -/
def renumber (l : List OutputRecord) : List OutputRecord := renumberFrom 0 l

/-- `transform_data`: drop the empty frame, filter by allowed secondary site
and classify, split into the `휴전` and `활선` groups, stably sort each group
by `(2차_순서, 시작_datetime)`, concatenate `휴전` first, and renumber. -/
def transform_data (df : List RawRecord) : List OutputRecord :=
  if df.isEmpty then []
  else
    let output_data := preOutput df
    if output_data.isEmpty then []
    else
      let df_shutdown := output_data.filter fun r => r.gubun == "휴전"
      let df_live := output_data.filter fun r => r.gubun == "활선"
      let df_sorted_list :=
        (if df_shutdown.isEmpty then [] else [List.insertionSort keyLE df_shutdown]) ++
          (if df_live.isEmpty then [] else [List.insertionSort keyLE df_live])
      let df_final := if df_sorted_list.isEmpty then output_data else df_sorted_list.flatten
      renumber df_final

/-- `fun r => { r with seqNo := 0 }`: forget the assigned sequence number, for
relating renumbered output to pre-renumbering records. -/
def clearSeq (r : OutputRecord) : OutputRecord := { r with seqNo := 0 }

/-! ### `save_to_excel_buffer` — the rendered document

The `openpyxl` workbook is modelled by its observable content: merged ranges,
the title cell, the 26 header cells of `A4:M5`, one list of 13 cells per data
row (with the final style state after both style loops), and the column-width
table. -/

/-- The style attributes the source sets on a cell (`Font`, `PatternFill`,
`Alignment`, `Border`); unset attributes are `none` / `false`. -/
structure CellFormat where
  fontBold : Bool
  fontSize : Option Nat
  fillColor : Option String
  horizontal : Option String
  vertical : Option String
  wrapText : Bool
  border : Bool
deriving DecidableEq

/-- A worksheet cell: its stored value (a formula when it starts with `=`)
and its style. -/
structure Cell where
  value : String
  format : CellFormat
deriving DecidableEq

/-- The rendered workbook content. -/
structure Document where
  mergedRanges : List String
  title : Cell
  headerCells : List (String × Cell)
  dataRows : List (Nat × List Cell)
  columnWidths : List (String × Nat)
deriving DecidableEq

/-- `report_date`, of which the title uses `strftime('%m.%d')`. -/
structure ReportDate where
  month : Nat
  day : Nat
deriving DecidableEq

/-- Two-digit zero padding, as `%m` / `%d` produce. -/
def pad2 (n : Nat) : String := if n < 10 then "0" ++ toString n else toString n

/-- `report_date.strftime('%m.%d')`. -/
def formatMMDD (d : ReportDate) : String := pad2 d.month ++ "." ++ pad2 d.day

/-- Style of the title cell `A1`: `Font(size=14, bold=True)`,
`Alignment(horizontal='center', vertical='center')`. -/
def titleFormat : CellFormat :=
  { fontBold := true, fontSize := some 14, fillColor := none,
    horizontal := some "center", vertical := some "center", wrapText := false, border := false }

/-- Style applied to every cell of `A4:M5`: bold font, `D3D3D3` fill, centered
wrapped alignment, thin border. -/
def headerFormat : CellFormat :=
  { fontBold := true, fontSize := none, fillColor := some "D3D3D3",
    horizontal := some "center", vertical := some "center", wrapText := true, border := true }

/-- The values written into the two header rows (unlabelled merged positions
hold the empty value). -/
def headerValues : List (String × String) :=
  [("A4", "구분"), ("B4", "순번"), ("C4", "휴전일시"), ("D4", ""), ("E4", ""), ("F4", ""),
    ("G4", "전압"), ("H4", "설비명"), ("I4", "공사개요"), ("J4", "구분"), ("K4", "주관부서"),
    ("L4", "감독자"), ("M4", "안전관리자"),
    ("A5", ""), ("B5", ""), ("C5", "시작"), ("D5", "종료"), ("E5", "2차"), ("F5", "변전소"),
    ("G5", ""), ("H5", ""), ("I5", ""), ("J5", ""), ("K5", ""), ("L5", ""), ("M5", "")]

/-- The merge calls, in source order. -/
def mergedRangesList : List String :=
  ["A1:M1", "A4:A5", "B4:B5", "C4:F4", "G4:G5", "H4:H5", "I4:I5", "J4:J5", "K4:K5",
    "L4:L5", "M4:M5"]

/-- The `column_widths` literal. -/
def column_widths : List (String × Nat) :=
  [("A", 8), ("B", 6), ("C", 18), ("D", 18), ("E", 10), ("F", 12), ("G", 8), ("H", 25),
    ("I", 40), ("J", 8), ("K", 15), ("L", 20), ("M", 12)]

/-- `PatternFill(start_color="FFFF99", ...)` on every cell of a `활선` row,
no fill otherwise. -/
def dataFill (r : OutputRecord) : Option String :=
  if r.gubun = "활선" then some "FFFF99" else none

/-- Style of data columns C–M: thin border, `Alignment(vertical='center',
wrap_text=True)`, plus the conditional live-work fill. -/
def bodyFormat (fill : Option String) : CellFormat :=
  { fontBold := false, fontSize := none, fillColor := fill,
    horizontal := none, vertical := some "center", wrapText := true, border := true }

/-- Final style of column A (구분): the second style loop re-applies
`Alignment(horizontal='center', vertical='center', wrap_text=True)`. -/
def gubunFormat (fill : Option String) : CellFormat :=
  { fontBold := false, fontSize := none, fillColor := fill,
    horizontal := some "center", vertical := some "center", wrapText := true, border := true }

/-- Style of column B (순번): centered, no wrap, thin border. -/
def seqFormat (fill : Option String) : CellFormat :=
  { fontBold := false, fontSize := none, fillColor := fill,
    horizontal := some "center", vertical := some "center", wrapText := false, border := true }

/-- The 13 cells written for one record: the classification, the sequence
formula `=ROW()-5` (the stored `순번` is never read), and the copied columns. -/
def rowCells (r : OutputRecord) : List Cell :=
  let fill := dataFill r
  [⟨r.gubun, gubunFormat fill⟩,
    ⟨"=ROW()-5", seqFormat fill⟩,
    ⟨r.startTime, bodyFormat fill⟩,
    ⟨r.endTime, bodyFormat fill⟩,
    ⟨r.secondary, bodyFormat fill⟩,
    ⟨r.substation, bodyFormat fill⟩,
    ⟨r.voltage, bodyFormat fill⟩,
    ⟨r.equipment, bodyFormat fill⟩,
    ⟨r.workSummary, bodyFormat fill⟩,
    ⟨r.gubun2, bodyFormat fill⟩,
    ⟨r.department, bodyFormat fill⟩,
    ⟨r.supervisor, bodyFormat fill⟩,
    ⟨r.safetyManager, bodyFormat fill⟩]

/-- `save_to_excel_buffer`: title in the merged `A1:M1`, the two-row header
block, one data row per record from physical row 6 (`start_row + idx`), and
the fixed column widths. -/
def save_to_excel_buffer (df : List OutputRecord) (report_date : ReportDate) : Document where
  mergedRanges := mergedRangesList
  title := ⟨"일일 휴전계획 보고(" ++ formatMMDD report_date ++ ")", titleFormat⟩
  headerCells := headerValues.map fun p => (p.1, ⟨p.2, headerFormat⟩)
  dataRows := (df.enumFrom 0).map fun p => (6 + p.1, rowCells p.2)
  columnWidths := column_widths

/-! ### Supporting lemmas -/

theorem clearSeq_set (a : OutputRecord) (k : Nat) :
    clearSeq { a with seqNo := k } = clearSeq a := rfl

theorem clearSeq_mkOutputRecord (r : RawRecord) :
    clearSeq (mkOutputRecord r) = mkOutputRecord r := rfl

theorem clearSeq_eq_self {a : OutputRecord} (h : a.seqNo = 0) : clearSeq a = a := by
  cases a
  simp_all [clearSeq]

theorem preOutput_eq_map_filter (df : List RawRecord) :
    preOutput df =
      (df.filter fun r => allowed_second_values.contains r.secondarySite).map mkOutputRecord := by
  induction df with
  | nil => rfl
  | cons r df ih =>
    simp only [preOutput, List.filterMap_cons, List.filter_cons] at *
    by_cases h : r.secondarySite ∈ allowed_second_values
    · simp [h]
      simpa using ih
    · simp [h]
      simpa using ih

theorem preOutput_gubun {df : List RawRecord} {o : OutputRecord} (ho : o ∈ preOutput df) :
    o.gubun = "휴전" ∨ o.gubun = "활선" := by
  rw [preOutput_eq_map_filter] at ho
  obtain ⟨r, -, rfl⟩ := List.mem_map.mp ho
  by_cases h : r.procedure = "활선작업"
  · right
    simp [mkOutputRecord, h]
  · left
    simp [mkOutputRecord, h]

theorem preOutput_seqNo {df : List RawRecord} {o : OutputRecord} (ho : o ∈ preOutput df) :
    o.seqNo = 0 := by
  rw [preOutput_eq_map_filter] at ho
  obtain ⟨r, -, rfl⟩ := List.mem_map.mp ho
  rfl

theorem preOutput_secondary_mem {df : List RawRecord} {o : OutputRecord}
    (ho : o ∈ preOutput df) : o.secondary ∈ allowed_second_values := by
  rw [preOutput_eq_map_filter] at ho
  obtain ⟨r, hr, rfl⟩ := List.mem_map.mp ho
  have := (List.mem_filter.mp hr).2
  simpa [mkOutputRecord] using this

theorem renumberFrom_cons (n : Nat) (a : OutputRecord) (l : List OutputRecord) :
    renumberFrom n (a :: l) = { a with seqNo := n + 1 } :: renumberFrom (n + 1) l := rfl

theorem renumberFrom_append (x y : List OutputRecord) (n : Nat) :
    renumberFrom n (x ++ y) = renumberFrom n x ++ renumberFrom (n + x.length) y := by
  simp [renumberFrom, List.enumFrom_append]

theorem renumberFrom_map_clearSeq (l : List OutputRecord) (n : Nat) :
    (renumberFrom n l).map clearSeq = l.map clearSeq := by
  induction l generalizing n with
  | nil => rfl
  | cons a l ih => simp [renumberFrom_cons, clearSeq_set, ih]

theorem renumberFrom_map_seqNo (l : List OutputRecord) (n : Nat) :
    (renumberFrom n l).map OutputRecord.seqNo = List.range' (n + 1) l.length := by
  induction l generalizing n with
  | nil => rfl
  | cons a l ih => simp [renumberFrom_cons, ih, List.range'_succ]

theorem mem_renumberFrom {l : List OutputRecord} {n : Nat} {r : OutputRecord}
    (hr : r ∈ renumberFrom n l) : ∃ a ∈ l, clearSeq r = clearSeq a := by
  induction l generalizing n with
  | nil => cases hr
  | cons a l ih =>
    rw [renumberFrom_cons] at hr
    rcases List.mem_cons.mp hr with h | h
    · exact ⟨a, List.mem_cons_self a l, by rw [h, clearSeq_set]⟩
    · obtain ⟨b, hb, hcb⟩ := ih h
      exact ⟨b, List.mem_cons_of_mem a hb, hcb⟩

theorem length_renumberFrom (l : List OutputRecord) (n : Nat) :
    (renumberFrom n l).length = l.length := by
  simp [renumberFrom]

theorem sorted_list_flatten (C A B : List OutputRecord) (h : ¬(A = [] ∧ B = [])) :
    (if ((if A.isEmpty then ([] : List (List OutputRecord)) else [List.insertionSort keyLE A]) ++
            (if B.isEmpty then [] else [List.insertionSort keyLE B])).isEmpty
        then C
        else ((if A.isEmpty then [] else [List.insertionSort keyLE A]) ++
            (if B.isEmpty then [] else [List.insertionSort keyLE B])).flatten) =
      List.insertionSort keyLE A ++ List.insertionSort keyLE B := by
  by_cases ha : A.isEmpty <;> by_cases hb : B.isEmpty <;>
    simp_all [List.isEmpty_iff]

theorem transform_data_normal (df : List RawRecord) :
    transform_data df =
      renumber
        (List.insertionSort keyLE ((preOutput df).filter fun r => r.gubun == "휴전") ++
          List.insertionSort keyLE ((preOutput df).filter fun r => r.gubun == "활선")) := by
  by_cases hdf : df.isEmpty
  · rw [List.isEmpty_iff] at hdf
    subst hdf
    rfl
  · by_cases hpre : (preOutput df).isEmpty
    · rw [List.isEmpty_iff] at hpre
      simp [transform_data, hdf, hpre, renumber, renumberFrom]
    · have hne : preOutput df ≠ [] := fun h => hpre (List.isEmpty_iff.mpr h)
      have hsplit : ¬(((preOutput df).filter fun r => r.gubun == "휴전") = [] ∧
          ((preOutput df).filter fun r => r.gubun == "활선") = []) := by
        rintro ⟨h1, h2⟩
        obtain ⟨o, ho⟩ := List.exists_mem_of_ne_nil _ hne
        rcases preOutput_gubun ho with h | h
        · have hmem : o ∈ (preOutput df).filter fun r => r.gubun == "휴전" :=
            List.mem_filter.mpr ⟨ho, by simp [h]⟩
          rw [h1] at hmem
          cases hmem
        · have hmem : o ∈ (preOutput df).filter fun r => r.gubun == "활선" :=
            List.mem_filter.mpr ⟨ho, by simp [h]⟩
          rw [h2] at hmem
          cases hmem
      simp only [transform_data]
      rw [if_neg hdf, if_neg hpre]
      exact congrArg renumber (sorted_list_flatten (preOutput df) _ _ hsplit)

theorem clearSeq_gubun {a b : OutputRecord} (h : clearSeq a = clearSeq b) :
    a.gubun = b.gubun := by
  have h2 := congrArg OutputRecord.gubun h
  exact h2

theorem clearSeq_secondary {a b : OutputRecord} (h : clearSeq a = clearSeq b) :
    a.secondary = b.secondary := by
  have h2 := congrArg OutputRecord.secondary h
  exact h2

theorem transform_split (df : List RawRecord) :
    transform_data df =
      renumberFrom 0
          (List.insertionSort keyLE ((preOutput df).filter fun r => r.gubun == "휴전")) ++
        renumberFrom
          (List.insertionSort keyLE ((preOutput df).filter fun r => r.gubun == "휴전")).length
          (List.insertionSort keyLE ((preOutput df).filter fun r => r.gubun == "활선")) := by
  rw [transform_data_normal, renumber, renumberFrom_append]
  simp

theorem mem_sort_filter {df : List RawRecord} {g : String} {o : OutputRecord}
    (h : o ∈ List.insertionSort keyLE ((preOutput df).filter fun r => r.gubun == g)) :
    o ∈ preOutput df ∧ o.gubun = g := by
  rw [List.mem_insertionSort] at h
  have h2 := List.mem_filter.mp h
  exact ⟨h2.1, by simpa using h2.2⟩

theorem mem_renumber_sort {df : List RawRecord} {g : String} {n : Nat} {r : OutputRecord}
    (h : r ∈ renumberFrom n
      (List.insertionSort keyLE ((preOutput df).filter fun x => x.gubun == g))) :
    (∃ a ∈ preOutput df, clearSeq r = clearSeq a) ∧ r.gubun = g := by
  obtain ⟨a, ha, hc⟩ := mem_renumberFrom h
  have h2 := mem_sort_filter ha
  exact ⟨⟨a, h2.1, hc⟩, by rw [clearSeq_gubun hc, h2.2]⟩

theorem mem_transform {df : List RawRecord} {o : OutputRecord} (h : o ∈ transform_data df) :
    ∃ a ∈ preOutput df, clearSeq o = clearSeq a := by
  rw [transform_split] at h
  rcases List.mem_append.mp h with h | h
  · exact (mem_renumber_sort h).1
  · exact (mem_renumber_sort h).1

theorem filter_gubun_perm (df : List RawRecord) :
    List.Perm
      (((preOutput df).filter fun r => r.gubun == "휴전") ++
        ((preOutput df).filter fun r => r.gubun == "활선"))
      (preOutput df) := by
  have h1 : ((preOutput df).filter fun r => r.gubun == "활선") =
      (preOutput df).filter fun r => !(r.gubun == "휴전") := by
    apply List.filter_congr
    intro o ho
    rcases preOutput_gubun ho with h | h <;> rw [h] <;> decide
  rw [h1]
  exact List.filter_append_perm _ _

theorem transform_length (df : List RawRecord) :
    (transform_data df).length =
      (df.filter fun r => allowed_second_values.contains r.secondarySite).length := by
  rw [transform_data_normal, renumber, length_renumberFrom, List.length_append,
    List.length_insertionSort, List.length_insertionSort, ← List.length_append,
    (filter_gubun_perm df).length_eq, preOutput_eq_map_filter, List.length_map]

theorem transform_filter_hu (df : List RawRecord) :
    ((transform_data df).filter fun r => r.gubun == "휴전") =
      renumberFrom 0
        (List.insertionSort keyLE ((preOutput df).filter fun r => r.gubun == "휴전")) := by
  rw [transform_split, List.filter_append]
  have h1 : (renumberFrom 0
        (List.insertionSort keyLE
          ((preOutput df).filter fun r => r.gubun == "휴전"))).filter
        (fun r => r.gubun == "휴전") =
      renumberFrom 0
        (List.insertionSort keyLE ((preOutput df).filter fun r => r.gubun == "휴전")) := by
    apply List.filter_eq_self.mpr
    intro a ha
    have := (mem_renumber_sort ha).2
    simp [this]
  have h2 : (renumberFrom
        (List.insertionSort keyLE ((preOutput df).filter fun r => r.gubun == "휴전")).length
        (List.insertionSort keyLE
          ((preOutput df).filter fun r => r.gubun == "활선"))).filter
        (fun r => r.gubun == "휴전") = [] := by
    apply List.filter_eq_nil_iff.mpr
    intro a ha
    have := (mem_renumber_sort ha).2
    simp [this]
  rw [h1, h2, List.append_nil]

theorem transform_filter_live (df : List RawRecord) :
    ((transform_data df).filter fun r => r.gubun == "활선") =
      renumberFrom
        (List.insertionSort keyLE ((preOutput df).filter fun r => r.gubun == "휴전")).length
        (List.insertionSort keyLE ((preOutput df).filter fun r => r.gubun == "활선")) := by
  rw [transform_split, List.filter_append]
  have h1 : (renumberFrom 0
        (List.insertionSort keyLE
          ((preOutput df).filter fun r => r.gubun == "휴전"))).filter
        (fun r => r.gubun == "활선") = [] := by
    apply List.filter_eq_nil_iff.mpr
    intro a ha
    have := (mem_renumber_sort ha).2
    simp [this]
  have h2 : (renumberFrom
        (List.insertionSort keyLE ((preOutput df).filter fun r => r.gubun == "휴전")).length
        (List.insertionSort keyLE
          ((preOutput df).filter fun r => r.gubun == "활선"))).filter
        (fun r => r.gubun == "활선") =
      renumberFrom
        (List.insertionSort keyLE ((preOutput df).filter fun r => r.gubun == "휴전")).length
        (List.insertionSort keyLE ((preOutput df).filter fun r => r.gubun == "활선")) := by
    apply List.filter_eq_self.mpr
    intro a ha
    have := (mem_renumber_sort ha).2
    simp [this]
  rw [h1, h2, List.nil_append]

theorem map_clearSeq_sort_filter (df : List RawRecord) (g : String) :
    (List.insertionSort keyLE ((preOutput df).filter fun r => r.gubun == g)).map clearSeq =
      List.insertionSort keyLE ((preOutput df).filter fun r => r.gubun == g) := by
  have h : ∀ a ∈ List.insertionSort keyLE ((preOutput df).filter fun r => r.gubun == g),
      clearSeq a = id a := by
    intro a ha
    exact clearSeq_eq_self (preOutput_seqNo (mem_sort_filter ha).1)
  rw [List.map_congr_left h, List.map_id]

theorem pairwise_renumberFrom {l : List OutputRecord} (n : Nat) (h : l.Pairwise keyLE) :
    (renumberFrom n l).Pairwise keyLE := by
  unfold renumberFrom
  rw [List.pairwise_map]
  have h2 : (l.enumFrom n).Pairwise fun p q => keyLE p.2 q.2 := by
    rw [← List.enumFrom_map_snd n l] at h
    exact List.pairwise_map.mp h
  exact h2.imp fun hpq => hpq

/-! ### Concrete inputs for scenario and witness theorems -/

/-- A fully populated raw row with an allowed secondary site. -/
def baseRaw : RawRecord where
  primarySite := "강원본부"
  secondarySite := "직할"
  substation := "춘천변전소"
  voltage := "154kV"
  equipment := "모선"
  workName := "모선 점검"
  workSummary := "정기 점검"
  startTime := "2024-01-01 08:00"
  endTime := "2024-01-01 17:00"
  category := "당일"
  department := "전력관리처"
  supervisor := "감독원"
  contractor := ""
  procedure := ""
  outageType := ""

/-- Scenario B: the `휴전` record with the later start time. -/
def rawOutageLate : RawRecord := { baseRaw with startTime := "2024-01-02 10:00" }

/-- Scenario B: the `활선` record with the earlier start time. -/
def rawLiveEarly : RawRecord :=
  { baseRaw with procedure := "활선작업", startTime := "2024-01-01 08:00" }

/-- A raw row whose start time has rank 5 (`태백`) and parses. -/
def rawParseableTaebaek : RawRecord :=
  { baseRaw with secondarySite := "태백", startTime := "2024-01-01 09:00" }

/-- A raw row whose start time has rank 1 (`직할`) and does not parse. -/
def rawUnparseableJikhal : RawRecord := { baseRaw with startTime := "nope" }

/-- A raw row with a disallowed secondary site. -/
def rawDisallowed : RawRecord := { baseRaw with secondarySite := "서울" }

/-! ### The claims -/

/-- **C1.** For every input, every output record of `transform_data` has a
secondary site among the five allowed literals `직할, 강릉, 동해, 원주, 태백`,
and a raw record with any other secondary site contributes no output record:
the output has exactly one record per raw record that passes the
secondary-site filter. -/
theorem C1_secondary_site_filter (df : List RawRecord) :
    (∀ o ∈ transform_data df, o.secondary ∈ allowed_second_values) ∧
      (transform_data df).length =
        (df.filter fun r => allowed_second_values.contains r.secondarySite).length := by
  refine ⟨?_, transform_length df⟩
  intro o ho
  obtain ⟨a, ha, hc⟩ := mem_transform ho
  rw [clearSeq_secondary hc]
  exact preOutput_secondary_mem ha

/-- Witness for C1 at a concrete input: the single output record produced
from `baseRaw` has an allowed secondary site. -/
theorem C1_secondary_site_filter_witness :
    ({ mkOutputRecord baseRaw with seqNo := 1 } : OutputRecord).secondary ∈
      allowed_second_values :=
  (C1_secondary_site_filter [baseRaw]).1 _ (by decide)

/-- **C2.** The sequence numbers of `transform_data`'s output, read in final
order, are exactly the contiguous range `1..N` where `N` is the number of raw
records surviving the secondary-site filter; in particular they are strictly
increasing with no gaps or duplicates (for an empty result both sides are the
empty list, covering the non-empty case the claim speaks about). -/
theorem C2_sequence_numbers (df : List RawRecord) :
    (transform_data df).map OutputRecord.seqNo =
        List.range' 1
          ((df.filter fun r => allowed_second_values.contains r.secondarySite).length) ∧
      ((transform_data df).map OutputRecord.seqNo).Pairwise (· < ·) := by
  have h1 : (transform_data df).map OutputRecord.seqNo =
      List.range' 1 ((transform_data df).length) := by
    rw [transform_data_normal, renumber, renumberFrom_map_seqNo, length_renumberFrom]
  rw [transform_length] at h1
  exact ⟨h1, by rw [h1]; exact List.pairwise_lt_range' 1 _⟩

/-- **C3.** Every `휴전`-classified record precedes every `활선`-classified
record in `transform_data`'s output, regardless of start times; in the
concrete two-record scenario where the `휴전` record starts later than the
`활선` record, the `휴전` record still gets sequence 1 and the `활선` record
sequence 2. -/
theorem C3_outage_before_livework (df : List RawRecord) :
    (∃ A B, transform_data df = A ++ B ∧
        (∀ r ∈ A, r.gubun = "휴전") ∧ (∀ r ∈ B, r.gubun = "활선")) ∧
      (transform_data [rawOutageLate, rawLiveEarly]).map (fun r => (r.gubun, r.seqNo)) =
        [("휴전", 1), ("활선", 2)] := by
  constructor
  · refine ⟨_, _, transform_split df, ?_, ?_⟩
    · intro r hr
      exact (mem_renumber_sort hr).2
    · intro r hr
      exact (mem_renumber_sort hr).2
  · decide

/-- Witness for C3 at a concrete input: the scenario-B equality itself,
obtained by instantiating the theorem. -/
theorem C3_outage_before_livework_witness :
    (transform_data [rawOutageLate, rawLiveEarly]).map (fun r => (r.gubun, r.seqNo)) =
      [("휴전", 1), ("활선", 2)] :=
  (C3_outage_before_livework []).2

theorem tripleLE_refl (k : Nat × Nat × Nat) : tripleLE k k := by
  unfold tripleLE
  omega

theorem keyLE_of_sortKey_eq {a b : OutputRecord} (h : sortKey a = sortKey b) : keyLE a b := by
  unfold keyLE
  rw [h]
  exact tripleLE_refl _

/-- Two raw rows that tie on the whole sort key but differ in content. -/
def rawTieA : RawRecord := { baseRaw with equipment := "설비A" }

/-- Second raw row of the tie, originally after `rawTieA`. -/
def rawTieB : RawRecord := { baseRaw with equipment := "설비B" }

/-- **C4 (amended).** Within each classification group, `transform_data`'s
output is the stable sort of the group's pre-sort record list by
`(secondary-site rank, parsed start time)`: each group segment of the output
(up to the later-assigned `순번`) equals `insertionSort keyLE` of the filtered
group, each segment is pairwise `keyLE`-sorted — rank ascending, then parsed
start time ascending, with an unparseable start time sorting after every
parseable start time *of the same rank* — and records with equal sort keys
keep their original relative order (stability). -/
theorem C4_group_sort (df : List RawRecord) :
    (((transform_data df).filter fun r => r.gubun == "휴전").map clearSeq =
        List.insertionSort keyLE ((preOutput df).filter fun r => r.gubun == "휴전")) ∧
      (((transform_data df).filter fun r => r.gubun == "활선").map clearSeq =
        List.insertionSort keyLE ((preOutput df).filter fun r => r.gubun == "활선")) ∧
      ((transform_data df).filter fun r => r.gubun == "휴전").Pairwise keyLE ∧
      ((transform_data df).filter fun r => r.gubun == "활선").Pairwise keyLE ∧
      (∀ g : String, ∀ a b : OutputRecord, sortKey a = sortKey b →
        List.Sublist [a, b] ((preOutput df).filter fun r => r.gubun == g) →
        List.Sublist [a, b]
          (List.insertionSort keyLE ((preOutput df).filter fun r => r.gubun == g))) := by
  refine ⟨?_, ?_, ?_, ?_, ?_⟩
  · rw [transform_filter_hu, renumberFrom_map_clearSeq, map_clearSeq_sort_filter]
  · rw [transform_filter_live, renumberFrom_map_clearSeq, map_clearSeq_sort_filter]
  · rw [transform_filter_hu]
    exact pairwise_renumberFrom _ (List.sorted_insertionSort keyLE _)
  · rw [transform_filter_live]
    exact pairwise_renumberFrom _ (List.sorted_insertionSort keyLE _)
  · intro g a b hk hsub
    exact List.pair_sublist_insertionSort (keyLE_of_sortKey_eq hk) hsub

/-- Witness for C4 at a concrete input: two key-tied records stay in their
original relative order through the group sort. -/
theorem C4_group_sort_witness :
    List.Sublist [mkOutputRecord rawTieA, mkOutputRecord rawTieB]
      (List.insertionSort keyLE
        ((preOutput [rawTieA, rawTieB]).filter fun r => r.gubun == "휴전")) :=
  (C4_group_sort [rawTieA, rawTieB]).2.2.2.2 "휴전" _ _ (by decide) (List.Sublist.refl _)

/-- **C4 counterexample.** The claim "a record whose start-time fails to
parse sorts after every record with a parseable start-time in its group" is
false: the secondary-site rank is the primary sort key, so the rank-1
(`직할`) record with the unparseable start `"nope"` sorts *before* the rank-5
(`태백`) record with a parseable start, although both are in the `휴전`
group.  Unparseable starts sort last only among records of equal rank. -/
theorem C4_unparseable_first_cex :
    (transform_data [rawParseableTaebaek, rawUnparseableJikhal]).map
        (fun r => (r.gubun, r.secondary, r.startTime)) =
        [("휴전", "직할", "nope"), ("휴전", "태백", "2024-01-01 09:00")] ∧
      parseStart "nope" = none ∧
      (parseStart "2024-01-01 09:00").isSome = true := by decide

/-- **C5.** A record retained by the filter is classified `활선` (live-work)
iff its `수속절차` field is exactly the literal `활선작업`; every other value —
the empty string included — yields `휴전` (outage).  The permutation conjunct
ties the classification of `mkOutputRecord` to the actual output of
`transform_data`. -/
theorem C5_classification (df : List RawRecord) (r : RawRecord) :
    List.Perm ((transform_data df).map clearSeq)
        ((df.filter fun x => allowed_second_values.contains x.secondarySite).map
          mkOutputRecord) ∧
      ((mkOutputRecord r).gubun = "활선" ↔ r.procedure = "활선작업") ∧
      ((mkOutputRecord r).gubun = "휴전" ↔ ¬r.procedure = "활선작업") ∧
      (mkOutputRecord { r with procedure := "" }).gubun = "휴전" := by
  refine ⟨?_, ?_, ?_, ?_⟩
  · rw [transform_data_normal, renumber, renumberFrom_map_clearSeq, List.map_append,
      map_clearSeq_sort_filter, map_clearSeq_sort_filter, ← preOutput_eq_map_filter]
    exact ((List.perm_insertionSort keyLE _).append (List.perm_insertionSort keyLE _)).trans
      (filter_gubun_perm df)
  · by_cases h : r.procedure = "활선작업" <;> simp [mkOutputRecord, h]
  · by_cases h : r.procedure = "활선작업" <;> simp [mkOutputRecord, h]
  · rfl

/-- **C6.** All no-data conditions surface as the empty-result marker, never
as a fault: fewer than 3 parsed rows makes the extractor return the empty
result, so does the absence of any post-header row with at least 15 cells,
and a filter that removes every record makes `transform_data` return the
same empty marker.  (Totality of the Lean functions models "never raises".) -/
theorem C6_empty_results (events : List HtmlEvent) (df : List RawRecord) :
    ((feed events).rows.length < 3 → parse_html_rows events = []) ∧
      ((∀ row ∈ (feed events).rows.drop 3, row.length < 15) →
        parse_html_rows events = []) ∧
      ((∀ r ∈ df, ¬allowed_second_values.contains r.secondarySite) →
        transform_data df = []) := by
  refine ⟨?_, ?_, ?_⟩
  · intro h
    simp only [parse_html_rows]
    rw [if_pos h]
  · intro h
    simp only [parse_html_rows]
    by_cases h3 : (feed events).rows.length < 3
    · rw [if_pos h3]
    · rw [if_neg h3]
      have hf : ((feed events).rows.drop 3).filter (fun row => 15 ≤ row.length) = [] := by
        apply List.filter_eq_nil_iff.mpr
        intro row hrow
        have h15 := h row hrow
        simp only [decide_eq_true_eq]
        omega
      rw [hf]
      rfl
  · intro h
    have hfil : df.filter (fun r => allowed_second_values.contains r.secondarySite) = [] :=
      List.filter_eq_nil_iff.mpr h
    have hpre : preOutput df = [] := by
      rw [preOutput_eq_map_filter, hfil]
      rfl
    rw [transform_data_normal, hpre]
    rfl

/-- Witness for C6 at concrete inputs: the empty event stream (0 rows) gives
the empty extraction, and a single disallowed-site record gives the empty
transformation. -/
theorem C6_empty_results_witness :
    parse_html_rows [] = [] ∧ transform_data [rawDisallowed] = [] :=
  ⟨(C6_empty_results [] []).1 (by decide),
    (C6_empty_results [] [rawDisallowed]).2.2 (by decide)⟩

/-- **C7.** The decoding step always produces text: whatever the strict
`euc-kr` and `utf-8` codecs do on the given bytes, the chain ends at the
lossy `cp949` fallback, so the `DecodeFailure` outcome is unreachable. -/
theorem C7_decode_total (eucKr utf8Strict : List Nat → Option String)
    (cp949Ignore : List Nat → String) (buffer : List Nat) :
    ∃ content, decodeBuffer eucKr utf8Strict cp949Ignore buffer = DecodeResult.ok content := by
  cases heq : eucKr buffer with
  | some c => exact ⟨c, by simp [decodeBuffer, heq]⟩
  | none =>
    cases heq2 : utf8Strict buffer with
    | some c => exact ⟨c, by simp [decodeBuffer, heq, heq2]⟩
    | none => exact ⟨cp949Ignore buffer, by simp [decodeBuffer, heq, heq2]⟩

/-- An outer table whose first cell contains text `A` and a complete inner
table (one row, one cell `X`), followed by a second cell `B` and a second
outer row `C`. -/
def nestedTableEvents : List HtmlEvent :=
  [.startTag "table", .startTag "tr", .startTag "td", .text "A",
    .startTag "table", .startTag "tr", .startTag "td", .text "X", .endTag "td",
    .endTag "tr", .endTag "table",
    .endTag "td", .startTag "td", .text "B", .endTag "td", .endTag "tr",
    .startTag "tr", .startTag "td", .text "C", .endTag "td", .endTag "tr",
    .endTag "table"]

/-- **C8 (amended).** The scanner tracks table state with a single boolean,
not a depth counter: any `table` open tag sets `in_table` and any `table`
close tag clears it, regardless of nesting.  A nested table's text is
therefore *not* concatenated into the enclosing cell: the nested cell resets
the cell buffer (discarding the enclosing cell's text `A`), the nested row is
emitted as a row of its own, and the nested close tag clears `in_table`, so
the scanner drops everything that remains of the outer table (the cell `B`
and the row `["C"]`): only the inner row `["X"]` survives. -/
theorem C8_nested_table (st : ParserState) :
    handle_starttag st "table" = { st with in_table := true } ∧
      handle_endtag st "table" = { st with in_table := false } ∧
      (feed nestedTableEvents).rows = [["X"]] := by
  refine ⟨?_, ?_, by decide⟩
  · simp [handle_starttag]
  · simp [handle_endtag]

/-- **C8 counterexample.** The claim as stated predicts that the nested
table's cell text concatenates into the enclosing cell and that the outer
table's remaining rows are unaffected — on `nestedTableEvents` that would
give rows `[["AX", "B"], ["C"]]`.  The scanner instead produces `[["X"]]`:
no concatenation happens and the outer table's remaining rows are lost. -/
theorem C8_nested_table_cex :
    (feed nestedTableEvents).rows = [["X"]] ∧
      (feed nestedTableEvents).rows ≠ [["AX", "B"], ["C"]] := by decide

/-- `dataFill` produces the pale-yellow fill exactly on `활선` rows. -/
theorem dataFill_iff (r : OutputRecord) :
    dataFill r = some "FFFF99" ↔ r.gubun = "활선" := by
  unfold dataFill
  by_cases h : r.gubun = "활선" <;> simp [h]

/-- **C9.** Rendering the same ordered record list and report date twice
yields identical documents, and the content is the one the claim lists: the
title `일일 휴전계획 보고(MM.DD)` merged over the 13 columns, the header block
with bold font, light-gray fill, centered wrapped alignment and thin borders,
one data row per record in order with thin borders and the pale-yellow fill
exactly on live-work rows, and the 13 fixed column widths. -/
theorem C9_render_deterministic (df : List OutputRecord) (d : ReportDate) :
    save_to_excel_buffer df d = save_to_excel_buffer df d ∧
      (save_to_excel_buffer df d).title =
        ⟨"일일 휴전계획 보고(" ++ formatMMDD d ++ ")", titleFormat⟩ ∧
      (save_to_excel_buffer df d).mergedRanges = mergedRangesList ∧
      (save_to_excel_buffer df d).columnWidths = column_widths ∧
      (save_to_excel_buffer df d).columnWidths.length = 13 ∧
      (∀ pc ∈ (save_to_excel_buffer df d).headerCells, pc.2.format = headerFormat) ∧
      (save_to_excel_buffer df d).dataRows =
        (df.enumFrom 0).map (fun p => (6 + p.1, rowCells p.2)) ∧
      (∀ r : OutputRecord, ∀ c ∈ rowCells r, c.format.border = true ∧
        (c.format.fillColor = some "FFFF99" ↔ r.gubun = "활선")) := by
  refine ⟨rfl, rfl, rfl, rfl, rfl, ?_, rfl, ?_⟩
  · intro pc hpc
    simp only [save_to_excel_buffer] at hpc
    obtain ⟨q, -, rfl⟩ := List.mem_map.mp hpc
    rfl
  · intro r c hc
    simp only [rowCells, List.mem_cons, List.not_mem_nil, or_false] at hc
    rcases hc with rfl | rfl | rfl | rfl | rfl | rfl | rfl | rfl | rfl | rfl | rfl | rfl | rfl
    all_goals exact ⟨rfl, dataFill_iff r⟩

/-- `rowCells` never reads the stored sequence number. -/
theorem rowCells_congr {a b : OutputRecord} (h : clearSeq a = clearSeq b) :
    rowCells a = rowCells b := by
  have ha : rowCells a = rowCells (clearSeq a) := rfl
  have hb : rowCells b = rowCells (clearSeq b) := rfl
  rw [ha, hb, h]

/-- Data-row construction only depends on records up to `clearSeq`. -/
theorem enum_rows_congr {df₁ df₂ : List OutputRecord}
    (h : List.Forall₂ (fun a b => clearSeq a = clearSeq b) df₁ df₂) (n : Nat) :
    (df₁.enumFrom n).map (fun p => (6 + p.1, rowCells p.2)) =
      (df₂.enumFrom n).map (fun p => (6 + p.1, rowCells p.2)) := by
  induction h generalizing n with
  | nil => rfl
  | cons hab _ ih => simp [List.enumFrom_cons, rowCells_congr hab, ih]

/-- **C10.** The renderer never reads the stored `순번`: two record lists
equal in every field except their sequence numbers render to identical
documents, and column B of every data row holds the position formula
`=ROW()-5` rather than the stored value. -/
theorem C10_render_ignores_seq (d : ReportDate) (df₁ df₂ : List OutputRecord)
    (h : List.Forall₂ (fun a b => clearSeq a = clearSeq b) df₁ df₂) :
    save_to_excel_buffer df₁ d = save_to_excel_buffer df₂ d ∧
      ∀ p ∈ (save_to_excel_buffer df₁ d).dataRows,
        (p.2.map Cell.value)[1]? = some "=ROW()-5" := by
  constructor
  · have hd := enum_rows_congr h 0
    simp [save_to_excel_buffer, hd]
  · intro p hp
    simp only [save_to_excel_buffer] at hp
    obtain ⟨q, -, rfl⟩ := List.mem_map.mp hp
    rfl

/-- The record rendered in the C10 witness, stored sequence number 1. -/
def recSeqA : OutputRecord := { mkOutputRecord baseRaw with seqNo := 1 }

/-- The same record with stored sequence number 42. -/
def recSeqB : OutputRecord := { mkOutputRecord baseRaw with seqNo := 42 }

/-- Witness for C10 at a concrete input: changing a stored sequence number
from 1 to 42 leaves the rendered document unchanged. -/
theorem C10_render_ignores_seq_witness :
    save_to_excel_buffer [recSeqA] ⟨3, 7⟩ = save_to_excel_buffer [recSeqB] ⟨3, 7⟩ :=
  (C10_render_ignores_seq ⟨3, 7⟩ [recSeqA] [recSeqB]
    (List.Forall₂.cons rfl List.Forall₂.nil)).1

end ExcelTransformer
